import Mathlib

/-!
Verification of the bbs metadata store against its specification.

The repository ships two source files: `cmd/bbs/main.go` (process wiring:
flag parsing, backend selection, migration-manager construction) and
`models/volume_mount_test.go` (the VolumeMount validation and round-trip
tests).  The wiring logic is embedded directly from `main.go`.  Components
whose implementation is not in the repository snapshot (VolumeMount.Validate,
the Cryptor, the Migration Manager pipeline, the Backend Store CAS contract,
the Event Hub, the Lock Coordinator) are modelled from the specification, as
marked on each definition.
-/

namespace BBS

/-! ## VolumeMount data model (models/volume_mount.go, exercised by
    models/volume_mount_test.go) -/

/-- Shared-device descriptor of a volume mount: a volume identifier and an
opaque mount configuration blob. -/
structure SharedDevice where
  volumeId : String
  mountConfig : String
  deriving Repr, DecidableEq

/-- Discriminated device descriptor carried by a VolumeMount: currently only
the shared form. -/
inductive VolumeMountDevice where
  | shared (s : SharedDevice)
  deriving Repr, DecidableEq

/-- A VolumeMount value object: driver name, container mount path, access
mode, a device descriptor, and the deprecated legacy fields (a raw config
byte blob and a legacy volume id). -/
structure VolumeMount where
  driver : String
  containerDir : String
  mode : String
  device : Option VolumeMountDevice
  deprecatedConfig : List Nat
  deprecatedVolumeId : String
  deriving Repr, DecidableEq

/-- Modelled from the spec: `VolumeMount.Validate` (models/volume_mount.go is
not in the snapshot; only its test is).  Per the spec invariant: driver,
container path and mode must be non-empty; a shared device descriptor must
carry a non-empty volume identifier; legacy deprecated fields, if present,
must independently validate or the whole mount is rejected.  The legacy
sub-validations are not specified beyond existing, so they are taken as
parameters `cfgOk` and `volIdOk`. -/
def VolumeMount.Validate (cfgOk : List Nat → Bool) (volIdOk : String → Bool)
    (m : VolumeMount) : Bool :=
  !(m.driver = "") && !(m.containerDir = "") && !(m.mode = "") &&
  (match m.device with
   | some (VolumeMountDevice.shared s) => !(s.volumeId = "")
   | none => true) &&
  (m.deprecatedConfig = [] || cfgOk m.deprecatedConfig) &&
  (m.deprecatedVolumeId = "" || volIdOk m.deprecatedVolumeId)

/-- The good mount of the test suite: driver "my-driver", container path
"/mnt/mypath", mode "r", shared device with volume id "my-volume" and mount
configuration `{"foo":"bar"}`, no deprecated fields. -/
def goodMount : VolumeMount :=
  { driver := "my-driver"
    containerDir := "/mnt/mypath"
    mode := "r"
    device := some (VolumeMountDevice.shared
      { volumeId := "my-volume", mountConfig := "\x7b\"foo\":\"bar\"\x7d" })
    deprecatedConfig := []
    deprecatedVolumeId := "" }

/-! ## VolumeMount wire representation (round-trip) -/

/-- A JSON-like wire value, modelled from the spec's "wire representation". -/
inductive Wire where
  | str (s : String)
  | bytes (b : List Nat)
  | null
  | obj (fields : List (String × Wire))
  deriving Repr

/-- Field lookup in a wire object. -/
def Wire.getField (w : Wire) (k : String) : Option Wire :=
  match w with
  | Wire.obj fs => (fs.find? (fun p => p.1 == k)).map Prod.snd
  | _ => none

/-- Modelled from the spec: serialization of a VolumeMount to its wire
representation (the JSON marshalling exercised by the test). -/
def VolumeMount.toWire (m : VolumeMount) : Wire :=
  Wire.obj
    [ ("driver", Wire.str m.driver)
    , ("container_dir", Wire.str m.containerDir)
    , ("mode", Wire.str m.mode)
    , ("shared", match m.device with
        | some (VolumeMountDevice.shared s) =>
            Wire.obj [ ("volume_id", Wire.str s.volumeId)
                     , ("mount_config", Wire.str s.mountConfig) ]
        | none => Wire.null)
    , ("deprecated_config", Wire.bytes m.deprecatedConfig)
    , ("deprecated_volume_id", Wire.str m.deprecatedVolumeId) ]

/-- Modelled from the spec: parsing a VolumeMount back from its wire
representation; fails on a malformed value. -/
def VolumeMount.fromWire (w : Wire) : Option VolumeMount := do
  let Wire.str driver ← w.getField "driver" | none
  let Wire.str containerDir ← w.getField "container_dir" | none
  let Wire.str mode ← w.getField "mode" | none
  let device ←
    match w.getField "shared" with
    | some Wire.null => some none
    | some (Wire.obj fs) => do
        let Wire.str vid ← (fs.find? (fun p => p.1 == "volume_id")).map Prod.snd | none
        let Wire.str mc ← (fs.find? (fun p => p.1 == "mount_config")).map Prod.snd | none
        some (some (VolumeMountDevice.shared { volumeId := vid, mountConfig := mc }))
    | _ => none
  let Wire.bytes dc ← w.getField "deprecated_config" | none
  let Wire.str dvi ← w.getField "deprecated_volume_id" | none
  some { driver := driver, containerDir := containerDir, mode := mode,
         device := device, deprecatedConfig := dc, deprecatedVolumeId := dvi }

end BBS

namespace BBS

/-- C1: the good mount validates; any mount with an empty driver, empty mode,
or empty shared-device volume id fails validation; a mount whose non-empty
deprecated config or deprecated volume id fails its own sub-validation fails
overall.  Quantified over the legacy sub-validators, which the spec leaves
abstract. -/
theorem volumeMount_validate_spec
    (cfgOk : List Nat → Bool) (volIdOk : String → Bool) :
    VolumeMount.Validate cfgOk volIdOk goodMount = true ∧
    (∀ m : VolumeMount, m.driver = "" →
      VolumeMount.Validate cfgOk volIdOk m = false) ∧
    (∀ m : VolumeMount, m.mode = "" →
      VolumeMount.Validate cfgOk volIdOk m = false) ∧
    (∀ (m : VolumeMount) (s : SharedDevice),
      m.device = some (VolumeMountDevice.shared s) → s.volumeId = "" →
      VolumeMount.Validate cfgOk volIdOk m = false) ∧
    (∀ m : VolumeMount, m.deprecatedConfig ≠ [] →
      cfgOk m.deprecatedConfig = false →
      VolumeMount.Validate cfgOk volIdOk m = false) ∧
    (∀ m : VolumeMount, m.deprecatedVolumeId ≠ "" →
      volIdOk m.deprecatedVolumeId = false →
      VolumeMount.Validate cfgOk volIdOk m = false) := by
  refine ⟨?_, ?_, ?_, ?_, ?_, ?_⟩
  · simp [VolumeMount.Validate, goodMount]
  · intro m h
    simp [VolumeMount.Validate, h]
  · intro m h
    simp [VolumeMount.Validate, h]
  · intro m s hdev h
    simp [VolumeMount.Validate, hdev, h]
  · intro m hne hfail
    simp [VolumeMount.Validate, hne, hfail]
  · intro m hne hfail
    simp [VolumeMount.Validate, hne, hfail]

/-- Witness for C1: instantiate the abstract legacy sub-validators with the
strictest concrete choice (everything legacy rejected) and check the good
mount, whose legacy fields are empty, still validates. -/
theorem volumeMount_validate_spec_witness :
    VolumeMount.Validate (fun _ => false) (fun _ => false) goodMount = true :=
  (volumeMount_validate_spec (fun _ => false) (fun _ => false)).1

/-- C2: serializing any VolumeMount (in particular one with a shared device)
to its wire representation and parsing it back succeeds and returns a mount
equal to the original in every field: driver, container path, mode,
shared-device volume id and mount configuration, and the deprecated
fields. -/
theorem volumeMount_roundTrip (m : VolumeMount) :
    VolumeMount.fromWire m.toWire = some m := by
  cases m with
  | mk driver containerDir mode device dc dvi =>
    cases device with
    | none => rfl
    | some d =>
      cases d with
      | shared s => rfl

/-- Witness for C2 at the test suite's good mount. -/
theorem volumeMount_roundTrip_witness :
    VolumeMount.fromWire goodMount.toWire = some goodMount :=
  volumeMount_roundTrip goodMount

/-! ## Process wiring (cmd/bbs/main.go) -/

/-- The two persistence engines main.go can select. -/
inductive BackendEngine where
  | etcd
  | sql
  deriving Repr, DecidableEq

/-- The command-line flags of main.go relevant to backend selection. -/
structure Config where
  databaseDriver : String
  databaseConnectionString : String
  deriving Repr, DecidableEq

/-- Flag defaults from main.go: databaseDriver defaults to "mysql"
(line 169-173), databaseConnectionString to "" (line 157-161). -/
def defaultConfig : Config :=
  { databaseDriver := "mysql", databaseConnectionString := "" }

/-- main.go line 242: the SQL branch is taken iff both databaseDriver and
databaseConnectionString are non-empty. -/
def Config.useSQL (c : Config) : Bool :=
  !(c.databaseDriver = "") && !(c.databaseConnectionString = "")

/-- Which engine each consumer built in main is wired to. -/
structure Wiring where
  activeDB : BackendEngine
  migrationTarget : BackendEngine
  encryptorTarget : BackendEngine
  handlerTarget : BackendEngine
  deriving Repr, DecidableEq

/-- The wiring main.go performs before serving (lines 235-293): activeDB
starts as the etcd store (line 239) and is switched to the SQL store when
both database flags are set (lines 242-260); encryptor.New and handlers.New
receive activeDB (lines 262, 285); migration.NewManager receives etcdDB
(line 267). -/
def mainWire (c : Config) : Wiring :=
  let etcdDB := BackendEngine.etcd
  let activeDB := if c.useSQL then BackendEngine.sql else etcdDB
  { activeDB := activeDB
    migrationTarget := etcdDB
    encryptorTarget := activeDB
    handlerTarget := activeDB }

/-- Counterexample to C3: with SQL configured, the active backend is the
relational engine but the Migration Manager is constructed over the etcd
store, so it does not run against the active backend. -/
theorem migrationTarget_not_active_counterexample :
    (mainWire { databaseDriver := "mysql",
                databaseConnectionString := "tcp(127.0.0.1:3306)/bbs" }).activeDB
      = BackendEngine.sql ∧
    (mainWire { databaseDriver := "mysql",
                databaseConnectionString := "tcp(127.0.0.1:3306)/bbs" }).migrationTarget
      = BackendEngine.etcd := by
  exact ⟨rfl, rfl⟩

/-- C3 amended: the Migration Manager always runs against the etcd key-value
store, whatever backend is active; it runs against the active backend exactly
when the key-value engine is the active one (no SQL configuration). -/
theorem migrationTarget_always_etcd (c : Config) :
    (mainWire c).migrationTarget = BackendEngine.etcd ∧
    ((mainWire c).migrationTarget = (mainWire c).activeDB ↔ c.useSQL = false) := by
  refine ⟨rfl, ?_⟩
  cases hc : c.useSQL <;> simp [mainWire, hc]

/-- C4: exactly one engine is active per process: the selection is a single
startup-time function of the configuration (relational iff both database
flags are set, key-value otherwise), and the consumers that serve traffic
(handlers, encryptor) all receive that one selected engine. -/
theorem single_active_backend (c : Config) :
    ((mainWire c).activeDB = BackendEngine.sql ↔ c.useSQL = true) ∧
    ((mainWire c).activeDB = BackendEngine.etcd ↔ c.useSQL = false) ∧
    (mainWire c).handlerTarget = (mainWire c).activeDB ∧
    (mainWire c).encryptorTarget = (mainWire c).activeDB := by
  refine ⟨?_, ?_, rfl, rfl⟩ <;> cases hc : c.useSQL <;> simp [mainWire, hc]

/-- C10: the relational engine is active iff both databaseDriver and
databaseConnectionString are non-empty; under the flag defaults (driver
"mysql", empty connection string) the key-value engine stays active, and a
non-empty connection string alone switches the process to the relational
engine. -/
theorem backend_selection_by_connection_string :
    (∀ c : Config, (mainWire c).activeDB = BackendEngine.sql ↔
      (c.databaseDriver ≠ "" ∧ c.databaseConnectionString ≠ "")) ∧
    (mainWire defaultConfig).activeDB = BackendEngine.etcd ∧
    (∀ s : String, s ≠ "" →
      (mainWire { defaultConfig with databaseConnectionString := s }).activeDB
        = BackendEngine.sql) := by
  refine ⟨?_, rfl, ?_⟩
  · intro c
    constructor
    · intro h
      by_contra hcon
      rw [Decidable.not_and_iff_or_not] at hcon
      rcases hcon with h1 | h1 <;>
        · rw [Decidable.not_not] at h1
          simp [mainWire, Config.useSQL, h1] at h
    · rintro ⟨h1, h2⟩
      simp [mainWire, Config.useSQL, h1, h2]
  · intro s hs
    simp [mainWire, Config.useSQL, defaultConfig, hs]

/-- Witness for C10: a concrete non-empty connection string under default
flags makes the SQL engine active. -/
theorem backend_selection_witness :
    (mainWire { defaultConfig with
        databaseConnectionString := "tcp(10.0.0.1:3306)/bbs" }).activeDB
      = BackendEngine.sql :=
  backend_selection_by_connection_string.2.2 "tcp(10.0.0.1:3306)/bbs" (by decide)

/-! ## Cryptor (spec §4.1; the encryption package is not in the snapshot) -/

/-- Modelled from the spec: an encryption key is an identifier/secret pair
(KeySet entries are "{identifier, secret} pairs"). -/
structure EncryptionKey where
  label : String
  secret : Nat
  deriving Repr, DecidableEq

/-- Modelled from the spec: a KeySet has exactly one primary key, used for
new writes, and retired keys usable only for decrypting legacy data;
immutable for the process lifetime. -/
structure KeySet where
  primary : EncryptionKey
  retired : List EncryptionKey
  deriving Repr, DecidableEq

/-- Modelled from the spec: an Envelope wraps ciphertext with the identifier
of the key used and a nonce — never key material — plus an integrity tag. -/
structure Envelope where
  keyLabel : String
  nonce : Nat
  ciphertext : List Nat
  tag : Nat
  deriving Repr, DecidableEq

/-- Cryptor failure kinds from the spec error taxonomy; Encrypt "fails only
on underlying random-source exhaustion". -/
inductive CryptorError where
  | UnknownKey
  | DecryptionFailed
  | RandomSourceExhausted
  deriving Repr, DecidableEq

/-- Keystream mask derived from the key secret and the envelope nonce. -/
def keyMask (k : EncryptionKey) (nonce : Nat) : Nat := k.secret ^^^ nonce

/-- Integrity tag over the plaintext under a mask. -/
def authTag (mask : Nat) (pt : List Nat) : Nat :=
  pt.foldl (fun a b => a ^^^ b) mask

/-- Encrypt a plaintext under a given key and nonce. -/
def encryptWith (k : EncryptionKey) (nonce : Nat) (pt : List Nat) : Envelope :=
  { keyLabel := k.label
    nonce := nonce
    ciphertext := pt.map (fun b => b ^^^ keyMask k nonce)
    tag := authTag (keyMask k nonce) pt }

/-- Key lookup by identifier among primary + retired keys. -/
def KeySet.lookup (ks : KeySet) (label : String) : Option EncryptionKey :=
  if ks.primary.label = label then some ks.primary
  else ks.retired.find? (fun k => k.label == label)

/-- Modelled from the spec: `Encrypt(plaintext) -> Envelope` always uses the
current primary key; the random source is modelled as an optional nonce, and
Encrypt fails only when it is exhausted. -/
def Cryptor.Encrypt (ks : KeySet) (rand : Option Nat) (pt : List Nat) :
    Except CryptorError Envelope :=
  match rand with
  | none => Except.error CryptorError.RandomSourceExhausted
  | some nonce => Except.ok (encryptWith ks.primary nonce pt)

/-- Modelled from the spec: `Decrypt(Envelope) -> plaintext` looks the key up
by the envelope's identifier among primary+retired keys; fails with
UnknownKey if no match, DecryptionFailed if the integrity check fails. -/
def Cryptor.Decrypt (ks : KeySet) (e : Envelope) :
    Except CryptorError (List Nat) :=
  match ks.lookup e.keyLabel with
  | none => Except.error CryptorError.UnknownKey
  | some k =>
      let pt := e.ciphertext.map (fun b => b ^^^ keyMask k e.nonce)
      if authTag (keyMask k e.nonce) pt = e.tag then Except.ok pt
      else Except.error CryptorError.DecryptionFailed

/-- Applying the same xor mask twice restores the byte list. -/
theorem mask_involutive (m : Nat) (pt : List Nat) :
    (pt.map (fun b => b ^^^ m)).map (fun b => b ^^^ m) = pt := by
  rw [List.map_map]
  have : ((fun b => b ^^^ m) ∘ fun b : Nat => b ^^^ m) = id := by
    funext b
    simp [Function.comp, Nat.xor_cancel_right]
  rw [this, List.map_id]

/-- Decrypting an envelope produced with key `k` recovers the plaintext when
the KeySet resolves `k.label` to `k`. -/
theorem decrypt_encryptWith (ks : KeySet) (k : EncryptionKey)
    (hk : ks.lookup k.label = some k) (nonce : Nat) (pt : List Nat) :
    Cryptor.Decrypt ks (encryptWith k nonce pt) = Except.ok pt := by
  unfold Cryptor.Decrypt encryptWith
  simp only [hk, mask_involutive]
  simp

/-- C5: for every record, decrypting the envelope Encrypt produced recovers
the record (whenever the random source supplies a nonce); the same holds for
an envelope encrypted under any retired key that the KeySet still resolves by
its identifier; Encrypt always stamps the envelope with the primary key's
identifier and fails exactly when the random source is exhausted. -/
theorem cryptor_roundTrip (ks : KeySet) (nonce : Nat) (pt : List Nat) :
    (∀ e, Cryptor.Encrypt ks (some nonce) pt = Except.ok e →
      Cryptor.Decrypt ks e = Except.ok pt ∧ e.keyLabel = ks.primary.label) ∧
    (∀ k ∈ ks.retired, ks.lookup k.label = some k →
      Cryptor.Decrypt ks (encryptWith k nonce pt) = Except.ok pt) ∧
    Cryptor.Encrypt ks none pt
      = Except.error CryptorError.RandomSourceExhausted := by
  refine ⟨?_, ?_, rfl⟩
  · intro e he
    have he' : e = encryptWith ks.primary nonce pt := by
      simpa [Cryptor.Encrypt] using he.symm
    subst he'
    refine ⟨?_, rfl⟩
    apply decrypt_encryptWith
    simp [KeySet.lookup]
  · intro k _ hk
    exact decrypt_encryptWith ks k hk nonce pt

/-- Witness for C5: a two-key KeySet (primary "key2", retired "key1") at a
concrete record; both the primary and the retired round-trip hold. -/
theorem cryptor_roundTrip_witness :
    Cryptor.Decrypt { primary := { label := "key2", secret := 77 },
                      retired := [{ label := "key1", secret := 13 }] }
        (encryptWith { label := "key1", secret := 13 } 5 [1, 2, 3])
      = Except.ok [1, 2, 3] := by
  apply (cryptor_roundTrip
    { primary := { label := "key2", secret := 77 },
      retired := [{ label := "key1", secret := 13 }] } 5 [1, 2, 3]).2.1
      { label := "key1", secret := 13 }
  · simp
  · decide

/-! ## Migration Manager (spec §4.3; the migration package is not in the
    snapshot) -/

/-- Modelled from the spec: a registered migration — a target schema version
and the data transformation it applies; the store's data is modelled as a
list of bytes. -/
structure Migration where
  version : Nat
  transform : List Nat → List Nat

/-- A backend store as the Migration Manager sees it: the recorded
SchemaVersion plus the data. -/
structure MigStore where
  version : Nat
  data : List Nat
  deriving Repr, DecidableEq

/-- Insert a migration into a version-sorted list. -/
def insertByVersion (m : Migration) : List Migration → List Migration
  | [] => [m]
  | x :: xs =>
      if m.version ≤ x.version then m :: x :: xs else x :: insertByVersion m xs

/-- Sort migrations ascending by target version. -/
def sortByVersion : List Migration → List Migration
  | [] => []
  | x :: xs => insertByVersion x (sortByVersion xs)

/-- Modelled from the spec: the Migration Manager's run — read the recorded
SchemaVersion, select every registered migration whose target version is
greater, sort ascending, and apply strictly in order; each migration bumps
the recorded version atomically with its own data change. -/
def Manager.run (registered : List Migration) (s : MigStore) : MigStore :=
  let pending := sortByVersion
    (registered.filter (fun m => decide (s.version < m.version)))
  pending.foldl
    (fun st m => { version := m.version, data := m.transform st.data }) s

/-- A migration that logs its own target version into the store data, so the
application order is observable. -/
def logMigration (v : Nat) : Migration :=
  { version := v, transform := fun data => data ++ [v] }

/-- Migrations targeting versions 2, 3 and 5, registered out of order. -/
def exampleMigrations : List Migration :=
  [logMigration 3, logMigration 5, logMigration 2]

/-- C6: from a store at version 1, the manager applies the migrations
targeting [2,3,5] strictly ascending (the data log reads 2, 3, 5) and the
final recorded SchemaVersion is 5; a second run on the migrated store is a
no-op. -/
theorem migration_ordering :
    Manager.run exampleMigrations { version := 1, data := [] }
      = { version := 5, data := [2, 3, 5] } ∧
    Manager.run exampleMigrations
        (Manager.run exampleMigrations { version := 1, data := [] })
      = Manager.run exampleMigrations { version := 1, data := [] } :=
  ⟨rfl, rfl⟩

/-! ## Backend Store optimistic concurrency (spec §4.2; the db package is not
    in the snapshot) -/

/-- A stored record: its version/index and its value. -/
structure StoredRecord where
  version : Nat
  value : String
  deriving Repr, DecidableEq

/-- A namespace of the Backend Store: keys mapped to versioned records. -/
abbrev KVStore := List (String × StoredRecord)

/-- Backend Store failure kinds from the spec error taxonomy. -/
inductive StoreError where
  | Conflict
  | NotFound
  deriving Repr, DecidableEq

/-- Record lookup by key. -/
def KVStore.get (s : KVStore) (k : String) : Option StoredRecord :=
  (s.find? (fun p => p.1 == k)).map Prod.snd

/-- Replace the record stored at a key. -/
def KVStore.setRecord (s : KVStore) (k : String) (r : StoredRecord) : KVStore :=
  s.map (fun p => if p.1 == k then (p.1, r) else p)

/-- Modelled from the spec: `CompareAndSwap(expectedVersion, newValue)` —
the caller supplies the version it last observed; the store fails with
Conflict if the stored version has since changed, and otherwise installs the
new value under a bumped version. -/
def compareAndSwap (s : KVStore) (k : String) (expected : Nat)
    (newValue : String) : Except StoreError KVStore :=
  match KVStore.get s k with
  | none => Except.error StoreError.NotFound
  | some r =>
      if r.version = expected then
        Except.ok (KVStore.setRecord s k
          { version := r.version + 1, value := newValue })
      else Except.error StoreError.Conflict

/-- Reading back the key just written returns the new record, provided the
key was present. -/
theorem get_setRecord (s : KVStore) (k : String) (r0 r : StoredRecord)
    (h : KVStore.get s k = some r0) :
    KVStore.get (KVStore.setRecord s k r) k = some r := by
  induction s with
  | nil => simp [KVStore.get] at h
  | cons p rest ih =>
      by_cases hk : p.1 = k
      · simp [KVStore.get, KVStore.setRecord, hk]
      · have hk' : (p.1 == k) = false := by simpa using hk
        simp only [KVStore.get, KVStore.setRecord, List.map_cons,
          List.find?] at h ⊢
        simp only [hk', Bool.false_eq_true, if_false] at h ⊢
        exact ih h

/-- C7: two CompareAndSwap calls on the same key carrying the same expected
version, linearized in either order: the first to reach the store succeeds
and the second fails with Conflict — exactly one wins, and the loser never
silently overwrites the winner. -/
theorem cas_optimistic (s : KVStore) (k : String) (e : Nat) (v1 v2 : String)
    (r : StoredRecord) (hget : KVStore.get s k = some r)
    (hv : r.version = e) :
    (∃ s1, compareAndSwap s k e v1 = Except.ok s1 ∧
       compareAndSwap s1 k e v2 = Except.error StoreError.Conflict) ∧
    (∃ s2, compareAndSwap s k e v2 = Except.ok s2 ∧
       compareAndSwap s2 k e v1 = Except.error StoreError.Conflict) := by
  subst hv
  constructor
  · refine ⟨KVStore.setRecord s k { version := r.version + 1, value := v1 },
      ?_, ?_⟩
    · simp [compareAndSwap, hget]
    · have h2 := get_setRecord s k r
        { version := r.version + 1, value := v1 } hget
      simp [compareAndSwap, h2, Nat.succ_ne_self]
  · refine ⟨KVStore.setRecord s k { version := r.version + 1, value := v2 },
      ?_, ?_⟩
    · simp [compareAndSwap, hget]
    · have h2 := get_setRecord s k r
        { version := r.version + 1, value := v2 } hget
      simp [compareAndSwap, h2, Nat.succ_ne_self]

/-- Witness for C7 on a one-record store at version 0. -/
theorem cas_optimistic_witness :
    (∃ s1, compareAndSwap [("task-1", { version := 0, value := "a" })]
        "task-1" 0 "b" = Except.ok s1 ∧
       compareAndSwap s1 "task-1" 0 "c"
        = Except.error StoreError.Conflict) ∧
    (∃ s2, compareAndSwap [("task-1", { version := 0, value := "a" })]
        "task-1" 0 "c" = Except.ok s2 ∧
       compareAndSwap s2 "task-1" 0 "b"
        = Except.error StoreError.Conflict) :=
  cas_optimistic [("task-1", { version := 0, value := "a" })] "task-1" 0
    "b" "c" { version := 0, value := "a" } (by decide) rfl

/-! ## Event Hub (spec §4.5; the events package is not in the snapshot) -/

/-- Events carried by the hub, identified by a number. -/
abbrev Event := Nat

/-- A subscriber: its id, its bounded buffer's capacity, and the buffer of
not-yet-drained events. -/
structure Subscriber where
  sid : Nat
  capacity : Nat
  buffer : List Event
  deriving Repr, DecidableEq

/-- Hub failure kinds from the spec error taxonomy. -/
inductive HubError where
  | Overflow
  | HubClosed
  deriving Repr, DecidableEq

/-- The hub: its current subscribers, each with its own bounded buffer. -/
structure Hub where
  subscribers : List Subscriber
  deriving Repr, DecidableEq

/-- Delivery of one event to one subscriber: append to the buffer if it has
room, otherwise the subscriber is dropped. -/
def deliver (e : Event) (s : Subscriber) : Option Subscriber :=
  if s.buffer.length < s.capacity then
    some { s with buffer := s.buffer ++ [e] }
  else none

/-- Modelled from the spec: `Publish` — synchronous and total from the
publisher's perspective (it never blocks): every subscriber with buffer room
receives the event; every subscriber whose buffer is full is disconnected,
its stream closed with an Overflow error, reported in the second
component. -/
def Hub.publish (h : Hub) (e : Event) : Hub × List (Nat × HubError) :=
  ( { subscribers := h.subscribers.filterMap (deliver e) }
  , (h.subscribers.filter
       (fun s => !(s.buffer.length < s.capacity))).map
      (fun s => (s.sid, HubError.Overflow)) )

/-- Publishing a sequence of events in order. -/
def Hub.publishAll (h : Hub) (es : List Event) : Hub :=
  es.foldl (fun h e => (h.publish e).1) h

/-- A subscriber that keeps room through a sequence of events receives all of
them, whatever happens to the other subscribers. -/
theorem publishAll_keeps_subscriber (es : List Event) (h : Hub)
    (s : Subscriber) (hs : s ∈ h.subscribers)
    (hroom : s.buffer.length + es.length ≤ s.capacity) :
    { s with buffer := s.buffer ++ es } ∈ (h.publishAll es).subscribers := by
  induction es generalizing h s with
  | nil =>
      simpa [Hub.publishAll] using hs
  | cons e rest ih =>
      have hlt : s.buffer.length < s.capacity := by
        simp only [List.length_cons] at hroom
        omega
      have hdel : deliver e s = some { s with buffer := s.buffer ++ [e] } := by
        simp [deliver, hlt]
      have hmem : { s with buffer := s.buffer ++ [e] }
          ∈ (h.publish e).1.subscribers := by
        simp only [Hub.publish, List.mem_filterMap]
        exact ⟨s, hs, hdel⟩
      have hroom' :
          ({ s with buffer := s.buffer ++ [e] } : Subscriber).buffer.length
            + rest.length
            ≤ ({ s with buffer := s.buffer ++ [e] } : Subscriber).capacity := by
        simp only [List.length_append, List.length_cons,
          List.length_nil] at hroom ⊢
        omega
      have := ih (h.publish e).1 { s with buffer := s.buffer ++ [e] }
        hmem hroom'
      simpa [Hub.publishAll, List.foldl_cons, List.append_assoc] using this

/-- C8: on a hub whose subscribers have pairwise-distinct ids, publishing an
event disconnects every subscriber whose bounded buffer is full — its stream
is closed with an Overflow error and no subscriber with its id remains —
while every subscriber with room receives the event; and a subscriber that
keeps room through a whole sequence of subsequent events receives every one
of them, uninterrupted by the disconnections. -/
theorem hub_backpressure (h : Hub) (e : Event)
    (hids : h.subscribers.Pairwise (fun a b => a.sid ≠ b.sid)) :
    (∀ s ∈ h.subscribers, ¬ s.buffer.length < s.capacity →
       (s.sid, HubError.Overflow) ∈ (h.publish e).2 ∧
       ∀ s' ∈ (h.publish e).1.subscribers, s'.sid ≠ s.sid) ∧
    (∀ s ∈ h.subscribers, s.buffer.length < s.capacity →
       { s with buffer := s.buffer ++ [e] } ∈ (h.publish e).1.subscribers) ∧
    (∀ (es : List Event), ∀ s ∈ h.subscribers,
       s.buffer.length + es.length ≤ s.capacity →
       { s with buffer := s.buffer ++ es } ∈ (h.publishAll es).subscribers) := by
  refine ⟨?_, ?_, ?_⟩
  · intro s hs hfull
    constructor
    · simp only [Hub.publish, List.mem_map, List.mem_filter]
      exact ⟨s, ⟨hs, by simpa using hfull⟩, rfl⟩
    · intro s' hs' hsid
      simp only [Hub.publish, List.mem_filterMap] at hs'
      obtain ⟨a, ha, hda⟩ := hs'
      have haroom : a.buffer.length < a.capacity := by
        by_contra hcon
        simp [deliver, hcon] at hda
      have ha' : s' = { a with buffer := a.buffer ++ [e] } := by
        simp [deliver, haroom] at hda
        exact hda.symm
      have hasid : a.sid = s.sid := by
        rw [ha'] at hsid
        exact hsid
      have hsymm : Symmetric (fun a b : Subscriber => a.sid ≠ b.sid) :=
        fun x y hxy h => hxy h.symm
      have heq : a = s := by
        by_contra hne
        exact (List.Pairwise.forall hsymm hids ha hs hne) hasid
      rw [heq] at haroom
      exact hfull haroom
  · intro s hs hroom
    simp only [Hub.publish, List.mem_filterMap]
    exact ⟨s, hs, by simp [deliver, hroom]⟩
  · intro es s hs hroom
    exact publishAll_keeps_subscriber es h s hs hroom

/-- Witness for C8: a hub with a full subscriber (id 1, capacity 1, one
undrained event) and a healthy subscriber (id 2, capacity 10); publishing
event 9 disconnects id 1 with Overflow and delivers 9 to id 2. -/
theorem hub_backpressure_witness :
    ((1 : Nat), HubError.Overflow) ∈
      ((Hub.mk [⟨1, 1, [0]⟩, ⟨2, 10, []⟩]).publish 9).2 ∧
    (⟨2, 10, [9]⟩ : Subscriber) ∈
      ((Hub.mk [⟨1, 1, [0]⟩, ⟨2, 10, []⟩]).publish 9).1.subscribers := by
  have H := hub_backpressure (Hub.mk [⟨1, 1, [0]⟩, ⟨2, 10, []⟩]) 9 (by decide)
  refine ⟨(H.1 ⟨1, 1, [0]⟩ (by decide) (by decide)).1, ?_⟩
  have := H.2.1 ⟨2, 10, []⟩ (by decide) (by decide)
  simpa using this

/-! ## Lock Coordinator (spec §4.4 and §9; the lock runner is provided by an
    external library, not in the snapshot) -/

/-- The leased-lock state machine of the spec design notes:
Unlocked → Acquiring → Held → Lost, with Held the only state permitting
write traffic. -/
inductive LockState where
  | Unlocked
  | Acquiring
  | Held
  | Lost
  deriving Repr, DecidableEq

/-- Lock failure kind from the spec error taxonomy. -/
inductive LockError where
  | LockLost
  deriving Repr, DecidableEq

/-- Modelled from the spec: the coordinator's renewal loop while Held,
driven by the outcome of each renewal attempt (one entry per renewal
interval; the list ending means external shutdown).  Returns the run's
result and the number of renewal intervals consumed: on a failed renewal the
run terminates with an error at that very interval, with no silent
re-acquisition. -/
def renewLoop : List Bool → Except LockError Unit × Nat
  | [] => (Except.ok (), 0)
  | true :: rest =>
      let r := renewLoop rest
      (r.1, r.2 + 1)
  | false :: _ => (Except.error LockError.LockLost, 1)

/-- A two-process system sharing the cluster-wide lock record: the record's
current owner (if any) and each process's coordinator state. -/
structure LockSystem where
  owner : Option Bool
  proc : Bool → LockState

/-- Point update of one process's coordinator state. -/
def updProc (p : Bool → LockState) (i : Bool) (st : LockState) :
    Bool → LockState :=
  fun j => if j = i then st else p j

/-- Modelled from the spec: the steps of the two-process lock protocol — a
process starts acquiring, acquires only when the lock record is unowned
(consensus-backed session), renews successfully only while it still owns the
record, transitions to Lost when its renewal fails (the session is revoked
atomically), and releases deterministically on shutdown. -/
inductive LockStep : LockSystem → LockSystem → Prop
  | start (s : LockSystem) (i : Bool) :
      s.proc i = LockState.Unlocked →
      LockStep s { s with proc := updProc s.proc i LockState.Acquiring }
  | acquire (s : LockSystem) (i : Bool) :
      s.proc i = LockState.Acquiring → s.owner = none →
      LockStep s { owner := some i, proc := updProc s.proc i LockState.Held }
  | renewOk (s : LockSystem) (i : Bool) :
      s.proc i = LockState.Held → s.owner = some i →
      LockStep s s
  | renewFail (s : LockSystem) (i : Bool) :
      s.proc i = LockState.Held →
      LockStep s { owner := if s.owner = some i then none else s.owner,
                   proc := updProc s.proc i LockState.Lost }
  | release (s : LockSystem) (i : Bool) :
      s.proc i = LockState.Held → s.owner = some i →
      LockStep s { owner := none, proc := updProc s.proc i LockState.Unlocked }

/-- Both processes start Unlocked with the lock record unowned. -/
def lockInit : LockSystem :=
  { owner := none, proc := fun _ => LockState.Unlocked }

/-- The protocol invariant: a process is Held only while it owns the lock
record. -/
def LockInv (s : LockSystem) : Prop :=
  ∀ i : Bool, s.proc i = LockState.Held → s.owner = some i

/-- Every step of the lock protocol preserves the invariant. -/
theorem lockStep_preserves (a b : LockSystem) (hab : LockStep a b)
    (ha : LockInv a) : LockInv b := by
  cases hab with
  | start i hst =>
      intro j hj
      simp only [updProc] at hj
      by_cases hji : j = i
      · simp [hji] at hj
      · simp only [hji, if_false] at hj
        exact ha j hj
  | acquire i hst hown =>
      intro j hj
      simp only [updProc] at hj
      by_cases hji : j = i
      · subst hji
        rfl
      · simp only [hji, if_false] at hj
        have h := ha j hj
        rw [hown] at h
        simp at h
  | renewOk i hst hown =>
      exact ha
  | renewFail i hst =>
      intro j hj
      simp only [updProc] at hj
      by_cases hji : j = i
      · simp [hji] at hj
      · simp only [hji, if_false] at hj
        have hja := ha j hj
        have hne : ¬ a.owner = some i := by
          rw [hja]
          intro hcon
          injection hcon with hcon'
          exact hji hcon'
        simp only [if_neg hne]
        exact hja
  | release i hst hown =>
      intro j hj
      simp only [updProc] at hj
      by_cases hji : j = i
      · simp [hji] at hj
      · simp only [hji, if_false] at hj
        have h := ha j hj
        rw [hown] at h
        injection h with h'
        exact absurd h'.symm hji

/-- The invariant holds in every state reachable from the initial one. -/
theorem lockInv_reachable (s : LockSystem)
    (h : Relation.ReflTransGen LockStep lockInit s) : LockInv s := by
  induction h with
  | refl =>
      intro i hi
      simp [lockInit] at hi
  | tail hab hbc ih =>
      exact lockStep_preserves _ _ hbc ih

/-- C9: a renewal failure terminates the coordinator's run with an error at
the renewal interval in which it occurs (after `pre.length` successful
renewals it consumes exactly one more interval, never silently retrying),
and in every reachable state of the two-process lock protocol the two
coordinators are never simultaneously Held. -/
theorem lock_fail_stop (pre post : List Bool)
    (hpre : ∀ b ∈ pre, b = true) (s : LockSystem)
    (hs : Relation.ReflTransGen LockStep lockInit s) :
    renewLoop (pre ++ false :: post)
      = (Except.error LockError.LockLost, pre.length + 1) ∧
    ¬(s.proc false = LockState.Held ∧ s.proc true = LockState.Held) := by
  constructor
  · induction pre with
    | nil => rfl
    | cons b rest ih =>
        have hb : b = true := hpre b (List.mem_cons_self b rest)
        subst hb
        have ih' := ih (fun x hx => hpre x (List.mem_cons_of_mem _ hx))
        simp only [List.cons_append, renewLoop, List.length_cons,
          List.append_eq] at ih' ⊢
        rw [ih']
  · rintro ⟨hf, ht⟩
    have hinv := lockInv_reachable s hs
    have h1 := hinv false hf
    have h2 := hinv true ht
    rw [h1] at h2
    exact absurd h2 (by simp)

/-- Witness for C9: one successful renewal then a failed one makes the run
end with LockLost after two intervals; and in the initial state (trivially
reachable) no process is Held. -/
theorem lock_fail_stop_witness :
    renewLoop [true, false]
      = (Except.error LockError.LockLost, 2) ∧
    ¬(lockInit.proc false = LockState.Held ∧
      lockInit.proc true = LockState.Held) := by
  have H := lock_fail_stop [true] [] (by decide) lockInit
    Relation.ReflTransGen.refl
  simpa using H

end BBS
